import Mathlib

/-!
Verification of the push-to-talk daemon (push-to-talk.py) against its
natural-language specification.

The daemon listens to raw input-device key events, tracks the set of held
keys, resolves the held chord to a rule set, and applies that rule set to
the audio server: muting or unmuting the default capture source, setting
its volume, and setting per-application capture-stream volumes.

The shallow embedding below translates the script into Lean:
  * external `pactl` commands are modelled by an `Except`-valued outcome
    fed to `run`, mirroring the `subprocess.run`/`CalledProcessError`
    try/except in the source;
  * the audio side effects of one main-loop cycle are modelled as a trace
    of `AudioAction` values, in the order the source issues the calls;
  * the mutable global set `ACTIVE_KEYS` is modelled as a duplicate-free
    `List String` threaded through an explicit step function, with the
    set operations `add`, guarded `remove` and truthiness test translated
    to their list counterparts;
  * the streams returned by `pactl list source-outputs` and the default
    source returned by `pactl get-default-source` are supplied by an
    `Oracle`, since they come from the live system.
-/

/-! ### Python string primitives

The Python string methods the script uses (`lower`, `strip`, `split`,
`startswith`, slicing, `" ".join`, `sorted`) are modelled by structural
functions over `String.data`, because the claims are settled by evaluating
the embedding on concrete inputs. Case mapping is ASCII, which covers every
string the configuration and the `pactl` fields use. -/

/-- `s.lower()`: ASCII case mapping over the characters. -/
def pyLower (s : String) : String :=
  String.mk (s.data.map Char.toLower)

/-- The characters `str.strip()` removes: ASCII whitespace. -/
def isSpaceChar (c : Char) : Bool :=
  c = ' ' || c = '\t' || c = '\n' || c = '\r' || c = '\x0b' || c = '\x0c'

/-- `s.strip()`: drop whitespace from both ends. -/
def pyTrim (s : String) : String :=
  String.mk (((s.data.dropWhile isSpaceChar).reverse.dropWhile isSpaceChar).reverse)

/-- Whether the first list is an initial segment of the second. -/
def startsList : List Char → List Char → Bool
  | [], _ => true
  | _ :: _, [] => false
  | p :: ps, c :: cs => p = c && startsList ps cs

/-- `s.startswith(pre)`. -/
def pyStartsWith (s pre : String) : Bool :=
  startsList pre.data s.data

/-- `s[n:]`: drop the first `n` characters. -/
def pyDrop (s : String) (n : Nat) : String :=
  String.mk (s.data.drop n)

/-- The accumulator pass of `s.split()`. -/
def splitWsAux : List Char → List Char → List String
  | [], [] => []
  | [], acc => [String.mk acc.reverse]
  | c :: cs, acc =>
    if isSpaceChar c then
      if acc = [] then splitWsAux cs []
      else String.mk acc.reverse :: splitWsAux cs []
    else splitWsAux cs (c :: acc)

/-- `s.split()` with no argument: split on whitespace runs, no empty parts. -/
def pySplitWs (s : String) : List String :=
  splitWsAux s.data []

/-- `" ".join(parts)`. -/
def joinWithSpace : List String → String
  | [] => ""
  | [s] => s
  | s :: rest => s ++ " " ++ joinWithSpace rest

/-- Python string comparison on code points, lexicographic. -/
def charListLe : List Char → List Char → Bool
  | [], _ => true
  | _ :: _, [] => false
  | a :: as, b :: bs =>
    if a.toNat < b.toNat then true
    else if b.toNat < a.toNat then false
    else charListLe as bs

/-- `a <= b` on Python strings, the order `sorted` uses. -/
def strLe (a b : String) : Bool :=
  charListLe a.data b.data

/-- `strLe` as a relation, for the sort. -/
def strLeRel : String → String → Prop :=
  fun a b => strLe a b = true

instance : DecidableRel strLeRel :=
  fun a b => instDecidableEqBool (strLe a b) true

/-- `sorted(xs)`: the `strLeRel`-sorted permutation. Python's `sorted` is a
stable sort, and on the duplicate-free lists it is applied to here its
result is the unique sorted permutation, which insertion sort produces. -/
def pySorted (xs : List String) : List String :=
  xs.insertionSort strLeRel

/-! ### Configuration constants (source lines 13-24) -/

/-- Source line 13: `DEVICE_NAME = ("gsr-ui virtual keyboard")`.
Note the parentheses do not make a tuple: this is a single string. -/
def DEVICE_NAME : String := "gsr-ui virtual keyboard"

/-- Source line 14: `TARGET_MIC_VOLUME = "1.0"`. -/
def TARGET_MIC_VOLUME : String := "1.0"

/-- Source lines 15-19: the `BINDS` table mapping chord keys to rule sets. -/
def BINDS : List (String × List String) :=
  [ ("f13", ["!all", "vesktop", "discord", "gpu-screen-recorder"])
  , ("f15", ["!vesktop", "!discord"])
  , ("f13 f15", ["all"]) ]

/-- `BINDS.get(rules_key)` (source line 223): dictionary lookup. -/
def BINDS_get (rulesKey : String) : Option (List String) :=
  (BINDS.find? (fun b => decide (b.1 = rulesKey))).map (fun b => b.2)

/-- Source lines 20-23: `ALL_KEYS`, the union of the keys appearing in any
configured chord (each `BINDS` key is split on spaces). Modelled as a list
used only through membership, matching the Python set. -/
def ALL_KEYS : List String :=
  (BINDS.map (fun b => b.1)).foldl (fun acc k => acc ++ pySplitWs k) []

/-! ### The external-command wrapper `run` (source lines 25-32) -/

/-- The data of Python's `subprocess.CalledProcessError` that the source
can observe: a non-zero exit code for a given command line. -/
structure CalledProcessError where
  returncode : Int
  cmd : List String
deriving DecidableEq

/-- The outcome of one external `pactl` invocation: either its stdout, or
a `CalledProcessError` raised by `check=True`. -/
abbrev CmdOutcome := Except CalledProcessError String

/-- Source lines 25-32: `run` executes a command and returns its stripped
stdout; a `CalledProcessError` is caught, logged, and turned into `""`.
The returned type is plain `String`, never an exception. -/
def run (res : CmdOutcome) : String :=
  match res with
  | Except.ok out => pyTrim out
  | Except.error _ => ""

/-- Source lines 33-34: `get_default_source` returns `run("pactl", "get-default-source")`. -/
def get_default_source (res : CmdOutcome) : String :=
  run res

/-- Source lines 35-37: `toggle_mic` issues `pactl set-source-mute` and
discards the result; we expose `run`'s value to state totality. -/
def toggle_mic_run (src : String) (state : Bool) (res : CmdOutcome) : String :=
  run res

/-- Source lines 38-40: `set_source_volume` issues `pactl set-source-volume`. -/
def set_source_volume_run (src : String) (volume : String) (res : CmdOutcome) : String :=
  run res

/-- `pactl set-source-output-volume` as issued inside `apply_rules`
(source line 103). -/
def set_source_output_volume_run (index : String) (volume : String) (res : CmdOutcome) : String :=
  run res

/-! ### Parsing `pactl list source-outputs` (source lines 41-63) -/

/-- One per-application capture stream: server index, application name,
application binary (the tuples built by `get_app_sources`). -/
structure AppSource where
  index : String
  name : String
  binary : String
deriving DecidableEq

/-- `line.split(" = ")[1].replace('"', '').strip()` (source lines 54, 56, 58).
The source indexes `[1]` unconditionally; on a line without `" = "` Python
would raise, which no claim exercises, so the missing case is `""`.
`replace('"', '')` with an empty replacement drops every double quote. -/
def fieldValue (line : String) : String :=
  pyTrim (String.mk (((line.splitOn " = ").getD 1 "").data.filter (fun c => ¬ c = '"')))

/-- The per-line field accumulation of source lines 48-58: scan the lines
of one record, remembering the last `object.serial`, `application.name`
and `application.process.binary` values seen. -/
def scanRecordLine (acc : Option String × Option String × Option String)
    (rawLine : String) : Option String × Option String × Option String :=
  let line := pyTrim rawLine
  if pyStartsWith line "object.serial" then
    (some (fieldValue line), acc.2.1, acc.2.2)
  else if pyStartsWith line "application.name" then
    (acc.1, some (fieldValue line), acc.2.2)
  else if pyStartsWith line "application.process.binary" then
    (acc.1, acc.2.1, some (fieldValue line))
  else
    acc

/-- Source lines 47-62: parse one `Source Output` record. A missing binary
becomes `"unknown*"` (`binary or "unknown*"`, which also replaces an empty
string); a record missing index or name is dropped (`continue`). -/
def parseRecord (record : String) : Option AppSource :=
  let fields := (record.splitOn "\n").foldl scanRecordLine (none, none, none)
  let binary :=
    match fields.2.2 with
    | none => "unknown*"
    | some b => if b = "" then "unknown*" else b
  match fields.1, fields.2.1 with
  | some index, some name => some { index := index, name := name, binary := binary }
  | _, _ => none

/-- Source lines 41-63: `get_app_sources` runs `pactl list source-outputs`,
returns `[]` when the output is empty (which covers command failure), and
otherwise splits records on the literal `"Source Output"` and parses each. -/
def get_app_sources (res : CmdOutcome) : List AppSource :=
  let output := run res
  if output = "" then []
  else (output.splitOn "Source Output").filterMap parseRecord

/-! ### The classifier inside `apply_rules` (source lines 64-106) -/

/-- The three action labels printed by `apply_rules`:
`"ALLOWED"` (line 93), `"MUTED"` (line 97), `"ALLOWED (default)"` (line 101). -/
inductive Decision where
  | allowed
  | muted
  | allowedDefault
deriving DecidableEq

/-- The body of the directive loop (source lines 68-77): one rule item is
stripped; with a `!` its remainder is lowercased into `muted_apps`,
otherwise the item is lowercased into `allowed_apps`. -/
def parseRulesStep (acc : List String × List String) (rawItem : String) :
    List String × List String :=
  let item := pyTrim rawItem
  if pyStartsWith item "!" then (acc.1 ++ [pyLower (pyDrop item 1)], acc.2)
  else (acc.1, acc.2 ++ [pyLower item])

/-- Source lines 66-77: split the rule list into the keys of `muted_apps`
(directives with a `!`, stripped and lowercased) and `allowed_apps`
(the rest, stripped and lowercased). The dictionaries are only ever
membership-tested, so lists of keys in insertion order model them. -/
def parseRules (rules : List String) : List String × List String :=
  rules.foldl parseRulesStep ([], [])

/-- Source lines 88-102: decide one stream's fate. Allowed when `"all"`,
the lowercased app name, or the lowercased binary is in `allowed_apps`;
otherwise muted under the same test against `muted_apps`; otherwise
allowed by default. -/
def classify (mutedApps allowedApps : List String) (s : AppSource) : Decision :=
  let appLc := pyLower s.name
  let binaryLc := pyLower s.binary
  if "all" ∈ allowedApps ∨ appLc ∈ allowedApps ∨ binaryLc ∈ allowedApps then
    Decision.allowed
  else if "all" ∈ mutedApps ∨ appLc ∈ mutedApps ∨ binaryLc ∈ mutedApps then
    Decision.muted
  else
    Decision.allowedDefault

/-- The volume `apply_rules` passes to `pactl set-source-output-volume`:
the target volume for both allowed outcomes, the literal `"0.0"` when muted
(source lines 92, 96, 100). -/
def Decision.appliedVolume (d : Decision) (volume : String) : String :=
  match d with
  | Decision.muted => "0.0"
  | _ => volume

/-! ### Audio-call traces -/

/-- One audio-control call, in the order the source issues them. The two
query verbs are recorded alongside the three mutating verbs so that frame
claims can state that a cycle performs no mutation. -/
inductive AudioAction where
  | getDefaultSource : AudioAction
  | toggleMic (src : String) (state : Bool) : AudioAction
  | setSourceVolume (src : String) (volume : String) : AudioAction
  | listSourceOutputs : AudioAction
  | setSourceOutputVolume (index : String) (volume : String) : AudioAction
deriving DecidableEq

/-- Whether an action mutates audio state (mute flag, device volume, or a
stream volume); the two queries do not. -/
def AudioAction.isMutation : AudioAction → Bool
  | AudioAction.getDefaultSource => false
  | AudioAction.toggleMic _ _ => true
  | AudioAction.setSourceVolume _ _ => true
  | AudioAction.listSourceOutputs => false
  | AudioAction.setSourceOutputVolume _ _ => true

/-- The audio calls issued by `apply_rules(rules, source, volume)` (source
lines 64-106) when the stream enumeration yields `streams`: one
`list source-outputs` query, then one `set-source-output-volume` per
stream at the classified volume. When no stream is active the source
returns early after the query, which the empty map also yields. -/
def apply_rules (rules : List String) (source : String) (volume : String)
    (streams : List AppSource) : List AudioAction :=
  let parsed := parseRules rules
  AudioAction.listSourceOutputs ::
    streams.map (fun s =>
      AudioAction.setSourceOutputVolume s.index
        ((classify parsed.1 parsed.2 s).appliedVolume volume))

/-! ### Key-state tracking and the main loop (source lines 200-227) -/

/-- `evdev.ecodes.EV_KEY`. -/
def EV_KEY : Nat := 1

/-- One raw evdev event: type, key code, and value
(1 = press, 0 = release, 2 = repeat). -/
structure Event where
  type : Nat
  code : Nat
  value : Nat
deriving DecidableEq

/-- Source line 207: `str(key_name).removeprefix("KEY_").lower()`;
`removeprefix` drops the four characters only when the name starts with them. -/
def keyFromName (n : String) : String :=
  pyLower (if pyStartsWith n "KEY_" then pyDrop n 4 else n)

/-- Source lines 202-209: the event filter. Returns the key of interest
for an accepted event and `none` for an ignored one. `codeToName` stands
for the fixed `evdev.ecodes.KEY` table, external to the repository. -/
def accepted (codeToName : Nat → Option String) (e : Event) : Option String :=
  if e.type ≠ EV_KEY ∨ e.value = 2 then none
  else
    match codeToName e.code with
    | none => none
    | some n =>
      let key := keyFromName n
      if key ∈ ALL_KEYS then some key else none

/-- `ACTIVE_KEYS.add(key)` (source line 212): a set add, a no-op when the
key is already held. -/
def addKey (active : List String) (key : String) : List String :=
  if key ∈ active then active else active ++ [key]

/-- Source lines 215-216: `if key in ACTIVE_KEYS: ACTIVE_KEYS.remove(key)`,
a removal guarded by membership. -/
def removeKey (active : List String) (key : String) : List String :=
  if key ∈ active then active.erase key else active

/-- Source lines 211-217: update `ACTIVE_KEYS`. A press adds the key
(idempotent on a set); a release removes it if present. An accepted
event whose value is neither 0, 1 nor 2 falls through both branches. -/
def updateKeys (active : List String) (key : String) (value : Nat) : List String :=
  if value = 1 then addKey active key
  else if value = 0 then removeKey active key
  else active

/-- Source line 222: `" ".join(sorted(ACTIVE_KEYS))`. -/
def chordKey (active : List String) : String :=
  joinWithSpace (pySorted active)

/-- What the live system answers during one cycle: the default source
string (already through `run`, so `""` on failure) and the parsed stream
list (already through `get_app_sources`, so `[]` on failure). -/
structure Oracle where
  defaultSource : String
  streams : List AppSource
deriving DecidableEq

/-- Source lines 218-227: the audio calls issued after `ACTIVE_KEYS` has
been updated to `active`. Empty set: mute, then apply the implicit
release-all rule set `["all"]`. Non-empty set: look the chord up in
`BINDS`; if absent do nothing, otherwise set the source volume, apply the
rules, and unmute last. -/
def resolveApply (active : List String) (source : String)
    (streams : List AppSource) : List AudioAction :=
  if active = [] then
    AudioAction.toggleMic source false ::
      apply_rules ["all"] source TARGET_MIC_VOLUME streams
  else
    match BINDS_get (chordKey active) with
    | none => []
    | some rules =>
        (AudioAction.setSourceVolume source TARGET_MIC_VOLUME ::
          apply_rules rules source TARGET_MIC_VOLUME streams)
          ++ [AudioAction.toggleMic source true]

/-- Source lines 200-227: one iteration of the main loop on one queued
event. An ignored event leaves the state untouched and issues no audio
call. An accepted event first queries the default source (line 210), then
updates `ACTIVE_KEYS`, then resolves and applies exactly once. -/
def step (codeToName : Nat → Option String) (o : Oracle)
    (active : List String) (e : Event) : List String × List AudioAction :=
  match accepted codeToName e with
  | none => (active, [])
  | some key =>
    let active' := updateKeys active key e.value
    (active', AudioAction.getDefaultSource :: resolveApply active' o.defaultSource o.streams)

/-! ### Cleanup and device discovery (source lines 107-130, 184-187) -/

/-- Source lines 107-111: the exit handler queries the default source and
mutes it only when the query returned a non-empty string. -/
def cleanup (res : CmdOutcome) : List AudioAction :=
  let source := get_default_source res
  AudioAction.getDefaultSource ::
    (if source = "" then [] else [AudioAction.toggleMic source false])

/-- The inner loop of `find_device_paths` for one `want` (source lines
122-125): append the path of every device whose name equals `want` and is
not already collected. -/
def collectMatches (devices : List (String × String)) (want : String)
    (found : List String) : List String :=
  devices.foldl
    (fun acc d => if want = d.2 ∧ acc.contains d.1 = false then acc ++ [d.1] else acc)
    found

/-- Source lines 121-128: iterate over `DEVICE_NAME`. Because
`DEVICE_NAME` is a string, `for want in DEVICE_NAME` yields its
characters, so each `want` is a one-character string. After each `want`,
a non-empty `found_paths` is returned at once. -/
def findLoop (devices : List (String × String)) (found : List String) :
    List String → List String
  | [] => []
  | want :: rest =>
    let found' := collectMatches devices want found
    if found' ≠ [] then found' else findLoop devices found' rest

/-- Source lines 112-130: `find_device_paths` over the enumerated devices,
given as (path, name) pairs in enumeration order. -/
def find_device_paths (devices : List (String × String)) : List String :=
  findLoop devices [] (DEVICE_NAME.data.map (fun c => String.mk [c]))

/-- Source lines 184-187: startup aborts with exit status 1 when device
discovery found nothing, otherwise enters the main loop with the paths. -/
def startup (devices : List (String × String)) : Except Nat (List String) :=
  let paths := find_device_paths devices
  if paths = [] then Except.error 1 else Except.ok paths

/-! ### Spec-side definitions

These follow the specification's wording, to be compared with the
definitions translated from the source. -/

/-- Spec 4.2: `mutedTargets` — the set of lowercased targets of the
directives prefixed `!`, after stripping. -/
def mutedTargetsSpec (rules : List String) : List String :=
  ((rules.map pyTrim).filter (fun i => pyStartsWith i "!")).map
    (fun i => pyLower (pyDrop i 1))

/-- Spec 4.2: `allowedTargets` — the set of lowercased remaining
directives, after stripping. -/
def allowedTargetsSpec (rules : List String) : List String :=
  ((rules.map pyTrim).filter (fun i => !(pyStartsWith i "!"))).map pyLower

/-- Spec 4.2: whether a stream matches a target set — `"all"`, the
lowercased application name, or the lowercased binary name is a member. -/
def matchTargets (targets : List String) (s : AppSource) : Prop :=
  "all" ∈ targets ∨ pyLower s.name ∈ targets ∨ pyLower s.binary ∈ targets

instance (targets : List String) (s : AppSource) :
    Decidable (matchTargets targets s) := by
  unfold matchTargets
  infer_instance

/-- A sample of the external `evdev.ecodes.KEY` table for concrete runs:
code 183 is `KEY_F13`, 185 is `KEY_F15`, 30 is `KEY_A`. -/
def sampleKeyTable : Nat → Option String := fun c =>
  if c = 183 then some "KEY_F13"
  else if c = 185 then some "KEY_F15"
  else if c = 30 then some "KEY_A"
  else none

/-- A sequence of presses of the given keys, in order, starting from the
empty held set: the `ACTIVE_KEYS` value after each key has been
press-added once. -/
def pressSeq (keys : List String) : List String :=
  keys.foldl addKey []

/-! ### Order facts about the Python string comparison -/

theorem charListLe_total : ∀ a b : List Char,
    charListLe a b = true ∨ charListLe b a = true := by
  intro a
  induction a with
  | nil => intro b; left; rfl
  | cons x xs ih =>
    intro b
    cases b with
    | nil => right; rfl
    | cons y ys =>
      simp only [charListLe]
      rcases Nat.lt_trichotomy x.toNat y.toNat with h | h | h
      · left; rw [if_pos h]
      · have h1 : ¬ x.toNat < y.toNat := by omega
        have h2 : ¬ y.toNat < x.toNat := by omega
        rw [if_neg h1, if_neg h2, if_neg h2, if_neg h1]
        exact ih ys
      · right; rw [if_pos h]

theorem charListLe_trans : ∀ a b c : List Char,
    charListLe a b = true → charListLe b c = true → charListLe a c = true := by
  intro a
  induction a with
  | nil => intro b c _ _; rfl
  | cons x xs ih =>
    intro b c hab hbc
    cases b with
    | nil => simp [charListLe] at hab
    | cons y ys =>
      cases c with
      | nil => simp [charListLe] at hbc
      | cons z zs =>
        simp only [charListLe] at hab hbc ⊢
        by_cases hxy : x.toNat < y.toNat
        · rw [if_pos hxy] at hab
          by_cases hyz : y.toNat < z.toNat
          · rw [if_pos (by omega : x.toNat < z.toNat)]
          · rw [if_neg hyz] at hbc
            by_cases hzy : z.toNat < y.toNat
            · rw [if_pos hzy] at hbc; exact absurd hbc (by simp)
            · rw [if_pos (by omega : x.toNat < z.toNat)]
        · rw [if_neg hxy] at hab
          by_cases hyx : y.toNat < x.toNat
          · rw [if_pos hyx] at hab; exact absurd hab (by simp)
          · rw [if_neg hyx] at hab
            by_cases hyz : y.toNat < z.toNat
            · rw [if_pos (by omega : x.toNat < z.toNat)]
            · rw [if_neg hyz] at hbc
              by_cases hzy : z.toNat < y.toNat
              · rw [if_pos hzy] at hbc; exact absurd hbc (by simp)
              · rw [if_neg hzy] at hbc
                rw [if_neg (by omega : ¬ x.toNat < z.toNat),
                    if_neg (by omega : ¬ z.toNat < x.toNat)]
                exact ih ys zs hab hbc

theorem char_toNat_inj {a b : Char} (h : a.toNat = b.toNat) : a = b := by
  apply Char.ext
  apply UInt32.ext
  have h1 : a.val.toNat = b.val.toNat := h
  omega

theorem charListLe_antisymm : ∀ a b : List Char,
    charListLe a b = true → charListLe b a = true → a = b := by
  intro a
  induction a with
  | nil =>
    intro b _ hba
    cases b with
    | nil => rfl
    | cons y ys => simp [charListLe] at hba
  | cons x xs ih =>
    intro b hab hba
    cases b with
    | nil => simp [charListLe] at hab
    | cons y ys =>
      simp only [charListLe] at hab hba
      by_cases hxy : x.toNat < y.toNat
      · rw [if_pos hxy] at hab
        rw [if_neg (by omega : ¬ y.toNat < x.toNat), if_pos hxy] at hba
        exact absurd hba (by simp)
      · rw [if_neg hxy] at hab
        by_cases hyx : y.toNat < x.toNat
        · rw [if_pos hyx] at hab; exact absurd hab (by simp)
        · rw [if_neg hyx] at hab
          rw [if_neg hyx, if_neg hxy] at hba
          have hx : x = y := char_toNat_inj (by omega)
          rw [hx, ih ys hab hba]

theorem string_data_eq {s t : String} (h : s.data = t.data) : s = t := by
  cases s
  cases t
  simp only at h
  rw [h]

instance : IsTotal String strLeRel :=
  ⟨fun a b => charListLe_total a.data b.data⟩

instance : IsTrans String strLeRel :=
  ⟨fun a b c hab hbc => charListLe_trans a.data b.data c.data hab hbc⟩

instance : IsAntisymm String strLeRel :=
  ⟨fun a b hab hba => string_data_eq (charListLe_antisymm a.data b.data hab hba)⟩

/-! ### Refinement of the directive parsing to the spec target sets -/

theorem parseRules_foldl (rules : List String) : ∀ m a : List String,
    rules.foldl parseRulesStep (m, a)
      = (m ++ mutedTargetsSpec rules, a ++ allowedTargetsSpec rules) := by
  induction rules with
  | nil =>
    intro m a
    simp [mutedTargetsSpec, allowedTargetsSpec]
  | cons r rs ih =>
    intro m a
    simp only [List.foldl_cons]
    by_cases h : pyStartsWith (pyTrim r) "!" = true
    · rw [show parseRulesStep (m, a) r = (m ++ [pyLower (pyDrop (pyTrim r) 1)], a) by
        simp [parseRulesStep, h]]
      rw [ih]
      simp [mutedTargetsSpec, allowedTargetsSpec, h]
    · rw [show parseRulesStep (m, a) r = (m, a ++ [pyLower (pyTrim r)]) by
        simp [parseRulesStep, h]]
      rw [ih]
      simp [mutedTargetsSpec, allowedTargetsSpec, h]

/-- The parsed `muted_apps` and `allowed_apps` dictionaries hold exactly
the spec's muted-target and allowed-target sets. -/
theorem parseRules_eq (rules : List String) :
    parseRules rules = (mutedTargetsSpec rules, allowedTargetsSpec rules) := by
  have h := parseRules_foldl rules [] []
  simpa [parseRules] using h

/-! ### Facts about `apply_rules` traces -/

theorem parseRules_all : parseRules ["all"] = ([], ["all"]) := by decide

theorem classify_all (s : AppSource) : classify [] ["all"] s = Decision.allowed := by
  simp [classify]

/-- Applying the release-all rule set `["all"]` sets every stream to the
target volume. -/
theorem apply_rules_all (src vol : String) (streams : List AppSource) :
    apply_rules ["all"] src vol streams
      = AudioAction.listSourceOutputs ::
          streams.map (fun s => AudioAction.setSourceOutputVolume s.index vol) := by
  simp only [apply_rules, parseRules_all]
  refine congrArg _ (List.map_congr_left fun s _ => ?_)
  rw [classify_all]
  rfl

/-- Every action in an `apply_rules` trace is the stream query or a
per-stream volume call. -/
theorem mem_apply_rules (rules : List String) (src vol : String)
    (streams : List AppSource) (a : AudioAction) (h : a ∈ apply_rules rules src vol streams) :
    a = AudioAction.listSourceOutputs ∨
      ∃ s ∈ streams, a = AudioAction.setSourceOutputVolume s.index
        ((classify (parseRules rules).1 (parseRules rules).2 s).appliedVolume vol) := by
  simp only [apply_rules, List.mem_cons, List.mem_map] at h
  rcases h with h | ⟨s, hs, hmap⟩
  · exact Or.inl h
  · exact Or.inr ⟨s, hs, hmap.symm⟩

/-- The cycle-opening default-source query never occurs inside
`resolveApply`. -/
theorem getDefaultSource_not_mem_resolveApply (active : List String)
    (src : String) (streams : List AppSource) :
    AudioAction.getDefaultSource ∉ resolveApply active src streams := by
  intro h
  unfold resolveApply at h
  by_cases hempty : active = []
  · rw [if_pos hempty] at h
    rcases List.mem_cons.mp h with h | h
    · exact absurd h (by simp)
    · rcases mem_apply_rules _ _ _ _ _ h with h | ⟨s, _, h⟩ <;> simp at h
  · rw [if_neg hempty] at h
    cases hb : BINDS_get (chordKey active) with
    | none => rw [hb] at h; simp at h
    | some rules =>
      rw [hb] at h
      rcases List.mem_append.mp h with h | h
      · rcases List.mem_cons.mp h with h | h
        · exact absurd h (by simp)
        · rcases mem_apply_rules _ _ _ _ _ h with h | ⟨s, _, h⟩ <;> simp at h
      · simp at h

/-! ### Sample inputs for concrete runs -/

/-- A concrete oracle: default source `"mic0"` and two capture streams,
the Vesktop and Firefox examples of the configuration. -/
def sampleOracle : Oracle :=
  ⟨"mic0", [⟨"41", "Vesktop", "vesktop"⟩, ⟨"42", "Firefox", "firefox"⟩]⟩

/-! ### The claims -/

/-- Claim C1: for every accepted event processed by the main loop, when
`HeldKeySet` is empty afterwards the audio trace is the source query, the
device mute, the stream query, and then every stream set to the target
volume under the release-all rule set `["all"]` — the mute is issued
before any per-stream volume call; when a configured rule is found for
the non-empty chord the trace is the source query, the device volume set,
the per-stream classify/apply trace of `apply_rules`, and the device
unmute as the last action. -/
theorem claim_C1 (codeToName : Nat → Option String) (o : Oracle)
    (active : List String) (e : Event) (key : String)
    (hacc : accepted codeToName e = some key) :
    ((step codeToName o active e).1 = [] →
      (step codeToName o active e).2 =
        [AudioAction.getDefaultSource,
         AudioAction.toggleMic o.defaultSource false,
         AudioAction.listSourceOutputs] ++
        o.streams.map (fun s => AudioAction.setSourceOutputVolume s.index TARGET_MIC_VOLUME))
    ∧ (∀ rules, BINDS_get (chordKey (step codeToName o active e).1) = some rules →
        (step codeToName o active e).1 ≠ [] →
        (step codeToName o active e).2 =
          [AudioAction.getDefaultSource,
           AudioAction.setSourceVolume o.defaultSource TARGET_MIC_VOLUME] ++
          apply_rules rules o.defaultSource TARGET_MIC_VOLUME o.streams ++
          [AudioAction.toggleMic o.defaultSource true]) := by
  simp only [step, hacc]
  constructor
  · intro h
    rw [resolveApply, if_pos h, apply_rules_all]
    rfl
  · intro rules hrules hne
    rw [resolveApply, if_neg hne, hrules]
    rfl

/-- Witness for C1: releasing the held `f13` empties the set; the trace is
the mute followed by the release-all application on the sample streams. -/
theorem claim_C1_witness :
    accepted sampleKeyTable ⟨1, 183, 0⟩ = some "f13"
    ∧ (step sampleKeyTable sampleOracle ["f13"] ⟨1, 183, 0⟩).1 = []
    ∧ (step sampleKeyTable sampleOracle ["f13"] ⟨1, 183, 0⟩).2 =
        [AudioAction.getDefaultSource,
         AudioAction.toggleMic "mic0" false,
         AudioAction.listSourceOutputs] ++
        sampleOracle.streams.map
          (fun s => AudioAction.setSourceOutputVolume s.index TARGET_MIC_VOLUME) :=
  ⟨by decide, by decide,
    (claim_C1 sampleKeyTable sampleOracle ["f13"] ⟨1, 183, 0⟩ "f13" (by decide)).1 (by decide)⟩

/-- Claim C2: the classifier decides ALLOWED when `"all"`, the lowercased
application name or the lowercased binary name is in the allowed-target
set; otherwise MUTED under the same test against the muted-target set;
otherwise ALLOWED by default. The applied volume is the target volume
except for MUTED, where it is exactly `"0.0"`. A stream matched by both
directions is ALLOWED (allow is checked before mute), and an unmatched
stream is never muted. -/
theorem claim_C2 (rules : List String) (vol : String) (s : AppSource) :
    (matchTargets (allowedTargetsSpec rules) s →
        classify (parseRules rules).1 (parseRules rules).2 s = Decision.allowed)
    ∧ (¬ matchTargets (allowedTargetsSpec rules) s →
        matchTargets (mutedTargetsSpec rules) s →
        classify (parseRules rules).1 (parseRules rules).2 s = Decision.muted)
    ∧ (¬ matchTargets (allowedTargetsSpec rules) s →
        ¬ matchTargets (mutedTargetsSpec rules) s →
        classify (parseRules rules).1 (parseRules rules).2 s = Decision.allowedDefault)
    ∧ (matchTargets (allowedTargetsSpec rules) s →
        matchTargets (mutedTargetsSpec rules) s →
        classify (parseRules rules).1 (parseRules rules).2 s = Decision.allowed)
    ∧ (∀ d : Decision, d ≠ Decision.muted → d.appliedVolume vol = vol)
    ∧ Decision.muted.appliedVolume vol = "0.0"
    ∧ (¬ matchTargets (allowedTargetsSpec rules) s →
        ¬ matchTargets (mutedTargetsSpec rules) s →
        classify (parseRules rules).1 (parseRules rules).2 s ≠ Decision.muted) := by
  rw [parseRules_eq]
  simp only [classify, matchTargets]
  refine ⟨?_, ?_, ?_, ?_, ?_, rfl, ?_⟩
  · intro h; rw [if_pos h]
  · intro hna hm; rw [if_neg hna, if_pos hm]
  · intro hna hnm; rw [if_neg hna, if_neg hnm]
  · intro h _; rw [if_pos h]
  · intro d hd
    cases d with
    | muted => exact absurd rfl hd
    | allowed => rfl
    | allowedDefault => rfl
  · intro hna hnm; rw [if_neg hna, if_neg hnm]; simp

/-- Witness for C2: under `["!all", "vesktop"]` the Vesktop stream matches
both directions and is ALLOWED; under `["!vesktop"]` an unmatched stream
is ALLOWED by default. -/
theorem claim_C2_witness :
    classify (parseRules ["!all", "vesktop"]).1 (parseRules ["!all", "vesktop"]).2
        ⟨"1", "Vesktop", "vesktop"⟩ = Decision.allowed
    ∧ classify (parseRules ["!vesktop"]).1 (parseRules ["!vesktop"]).2
        ⟨"2", "other-app", "other-app"⟩ = Decision.allowedDefault :=
  ⟨(claim_C2 ["!all", "vesktop"] "1.0" ⟨"1", "Vesktop", "vesktop"⟩).2.2.2.1
      (by decide) (by decide),
    (claim_C2 ["!vesktop"] "1.0" ⟨"2", "other-app", "other-app"⟩).2.2.1
      (by decide) (by decide)⟩

/-- Claim C3: the chord is the space-join of the lexically sorted members
of the held set, so any two states holding the same keys — whatever the
press order that built them — derive the same chord; pressing `f15` then
`f13` yields the chord `"f13 f15"`, as does the reverse order. -/
theorem claim_C3 :
    (∀ active : List String, List.Sorted strLeRel (pySorted active)
        ∧ (pySorted active).Perm active
        ∧ chordKey active = joinWithSpace (pySorted active))
    ∧ (∀ active₁ active₂ : List String, active₁.Perm active₂ →
        chordKey active₁ = chordKey active₂)
    ∧ chordKey (pressSeq ["f15", "f13"]) = "f13 f15"
    ∧ chordKey (pressSeq ["f13", "f15"]) = "f13 f15" := by
  refine ⟨fun active => ⟨List.sorted_insertionSort _ _, List.perm_insertionSort _ _, rfl⟩,
    ?_, by decide, by decide⟩
  intro a₁ a₂ h
  unfold chordKey
  congr 1
  exact List.eq_of_perm_of_sorted
    ((List.perm_insertionSort _ _).trans (h.trans (List.perm_insertionSort _ _).symm))
    (List.sorted_insertionSort _ _) (List.sorted_insertionSort _ _)

/-- Witness for C3: the two press orders of `f15` and `f13` give permuted
held sets, hence equal chords. -/
theorem claim_C3_witness :
    chordKey ["f15", "f13"] = chordKey ["f13", "f15"] :=
  claim_C3.2.1 ["f15", "f13"] ["f13", "f15"] (by decide)

/-- Claim C4: an accepted press of an already-held key and an accepted
release of an absent key leave `HeldKeySet` unchanged, yet every accepted
event still produces the source query followed by exactly one resolve and
apply cycle for the current set — the query appears once and never inside
the resolution trace. -/
theorem claim_C4 (codeToName : Nat → Option String) (o : Oracle)
    (active : List String) (e : Event) (key : String)
    (hacc : accepted codeToName e = some key) :
    (e.value = 1 → key ∈ active → (step codeToName o active e).1 = active)
    ∧ (e.value = 0 → key ∉ active → (step codeToName o active e).1 = active)
    ∧ (step codeToName o active e).2
        = AudioAction.getDefaultSource ::
            resolveApply (step codeToName o active e).1 o.defaultSource o.streams
    ∧ AudioAction.getDefaultSource ∉
        resolveApply (step codeToName o active e).1 o.defaultSource o.streams := by
  refine ⟨?_, ?_, ?_, ?_⟩
  · intro hv hmem
    simp only [step, hacc, updateKeys, hv, if_pos rfl]
    simp [addKey, hmem]
  · intro hv hmem
    simp only [step, hacc, updateKeys, hv]
    simp [removeKey, hmem]
  · simp only [step, hacc]
  · exact getDefaultSource_not_mem_resolveApply _ _ _

/-- Witness for C4: re-pressing the held `f13` keeps the set `["f13"]`
while the cycle still resolves and re-applies the `f13` rule. -/
theorem claim_C4_witness :
    accepted sampleKeyTable ⟨1, 183, 1⟩ = some "f13"
    ∧ (step sampleKeyTable sampleOracle ["f13"] ⟨1, 183, 1⟩).1 = ["f13"] :=
  ⟨by decide,
    (claim_C4 sampleKeyTable sampleOracle ["f13"] ⟨1, 183, 1⟩ "f13" (by decide)).1
      rfl (by decide)⟩

/-- Claim C5: an accepted event whose updated held set is non-empty but
whose chord has no configured rule issues only the opening source query:
no mute, no unmute, no device volume, no stream volume — no audio
mutation at all. -/
theorem claim_C5 (codeToName : Nat → Option String) (o : Oracle)
    (active : List String) (e : Event) (key : String)
    (hacc : accepted codeToName e = some key)
    (hne : (step codeToName o active e).1 ≠ [])
    (hnorule : BINDS_get (chordKey (step codeToName o active e).1) = none) :
    (step codeToName o active e).2 = [AudioAction.getDefaultSource]
    ∧ ∀ a ∈ (step codeToName o active e).2, a.isMutation = false := by
  simp only [step, hacc] at hne hnorule ⊢
  rw [resolveApply, if_neg hne, hnorule]
  refine ⟨rfl, ?_⟩
  intro a ha
  simp at ha
  rw [ha]
  rfl

/-- Witness for C5: from a state holding the junk key `"a"`, pressing
`f13` yields the chord `"a f13"`, which has no configured rule, and the
cycle performs no audio mutation. -/
theorem claim_C5_witness :
    (step sampleKeyTable sampleOracle ["a"] ⟨1, 183, 1⟩).2 = [AudioAction.getDefaultSource] :=
  (claim_C5 sampleKeyTable sampleOracle ["a"] ⟨1, 183, 1⟩ "f13"
    (by decide) (by decide) (by decide)).1

/-- Claim C6: a raw event that is not a key event, or is a key repeat, or
has no mapping in the code→name table, or maps to a key outside the
configured keys of interest, leaves the held set unchanged and triggers
no resolve cycle and no audio call. -/
theorem claim_C6 (codeToName : Nat → Option String) (o : Oracle)
    (active : List String) (e : Event)
    (h : e.type ≠ EV_KEY ∨ e.value = 2 ∨ codeToName e.code = none
        ∨ ∃ n, codeToName e.code = some n ∧ keyFromName n ∉ ALL_KEYS) :
    step codeToName o active e = (active, []) := by
  have hacc : accepted codeToName e = none := by
    unfold accepted
    by_cases h0 : e.type ≠ EV_KEY ∨ e.value = 2
    · rw [if_pos h0]
    · rw [if_neg h0]
      rcases h with h | h | h | ⟨n, hn, hmem⟩
      · exact absurd (Or.inl h) h0
      · exact absurd (Or.inr h) h0
      · rw [h]
      · rw [hn]; simp [hmem]
  simp [step, hacc]

/-- Witness for C6: a key event whose code 30 maps to `KEY_A`, a key not
of interest, is ignored entirely. -/
theorem claim_C6_witness :
    step sampleKeyTable sampleOracle ["f13"] ⟨1, 30, 1⟩ = (["f13"], []) :=
  claim_C6 sampleKeyTable sampleOracle ["f13"] ⟨1, 30, 1⟩
    (Or.inr (Or.inr (Or.inr ⟨"KEY_A", by decide, by decide⟩)))

/-- Claim C7: every external-command failure is caught at the `run`
boundary and turned into the neutral result for that single call — the
empty string for the value-returning operations, the empty stream list
for the enumeration — and every operation is a total function into plain
values: no exception reaches the caller. -/
theorem claim_C7 (e : CalledProcessError) (src vol idx : String) (state : Bool) :
    run (Except.error e) = ""
    ∧ get_default_source (Except.error e) = ""
    ∧ toggle_mic_run src state (Except.error e) = ""
    ∧ set_source_volume_run src vol (Except.error e) = ""
    ∧ set_source_output_volume_run idx vol (Except.error e) = ""
    ∧ get_app_sources (Except.error e) = []
    ∧ (∀ res : CmdOutcome, run res = "" ∨ ∃ out, res = Except.ok out ∧ run res = pyTrim out) := by
  refine ⟨rfl, rfl, rfl, rfl, rfl, rfl, ?_⟩
  intro res
  cases res with
  | error err => left; rfl
  | ok out => right; exact ⟨out, rfl, rfl⟩

/-- Counterexample to C8 as stated: a main-loop cycle in which the
default-source query returned the empty string is not skipped — pressing
`f13` with the failed (empty) source still issues the device-volume call
and the unmute, passing the empty source string. -/
theorem claim_C8_counterexample :
    get_default_source (Except.error ⟨1, ["pactl", "get-default-source"]⟩) = ""
    ∧ (step sampleKeyTable ⟨"", []⟩ [] ⟨1, 183, 1⟩).2.filter (fun a => a.isMutation)
        = [AudioAction.setSourceVolume "" "1.0", AudioAction.toggleMic "" true] :=
  ⟨rfl, by decide⟩

/-- Claim C8 as amended: only the exit-cleanup path treats an empty
default source as a no-op — when the query returns the empty string,
`cleanup` performs no audio mutation; the main loop does not make this
check. -/
theorem claim_C8_amended (res : CmdOutcome) (h : get_default_source res = "") :
    cleanup res = [AudioAction.getDefaultSource]
    ∧ ∀ a ∈ cleanup res, a.isMutation = false := by
  constructor
  · simp [cleanup, h]
  · intro a ha
    simp [cleanup, h] at ha
    rw [ha]
    rfl

/-- Witness for the amended C8: a failed default-source query makes
`cleanup` skip the mute. -/
theorem claim_C8_amended_witness :
    cleanup (Except.error ⟨1, ["pactl", "get-default-source"]⟩)
        = [AudioAction.getDefaultSource]
    ∧ ∀ a ∈ cleanup (Except.error ⟨1, ["pactl", "get-default-source"]⟩),
        a.isMutation = false :=
  claim_C8_amended _ rfl

/-- Claim C9, evaluated on the code: a device named exactly the configured
`DEVICE_NAME` is never matched, because the source iterates over the
characters of the string (the parentheses around the value do not make a
tuple), so startup exits with status 1; a device whose whole name is the
single character `"g"` is matched instead. -/
theorem claim_C9_code_eval :
    startup [("/dev/input/event5", "gsr-ui virtual keyboard")] = Except.error 1
    ∧ find_device_paths [("/dev/input/event5", "gsr-ui virtual keyboard")] = []
    ∧ "gsr-ui virtual keyboard" = DEVICE_NAME
    ∧ find_device_paths [("/dev/input/event0", "g")] = ["/dev/input/event0"] :=
  ⟨rfl, by decide, rfl, by decide⟩

/-- Claim C10: the release-all path never sets the device's overall
source volume — only the mute flag and the per-stream volumes change —
and a device-volume call can occur only on the configured-rule path. -/
theorem claim_C10 (codeToName : Nat → Option String) (o : Oracle)
    (active : List String) (e : Event) (key : String)
    (hacc : accepted codeToName e = some key) :
    ((step codeToName o active e).1 = [] →
      ∀ src vol, AudioAction.setSourceVolume src vol ∉ (step codeToName o active e).2)
    ∧ (∀ src vol, AudioAction.setSourceVolume src vol ∈ (step codeToName o active e).2 →
        (step codeToName o active e).1 ≠ [] ∧
        ∃ rules, BINDS_get (chordKey (step codeToName o active e).1) = some rules) := by
  simp only [step, hacc]
  constructor
  · intro h src vol hmem
    rw [resolveApply, if_pos h, apply_rules_all] at hmem
    simp at hmem
  · intro src vol hmem
    rcases List.mem_cons.mp hmem with h | h
    · exact absurd h (by simp)
    · rw [resolveApply] at h
      by_cases hempty : updateKeys active key e.value = []
      · rw [if_pos hempty, apply_rules_all] at h
        simp at h
      · rw [if_neg hempty] at h
        refine ⟨hempty, ?_⟩
        cases hb : BINDS_get (chordKey (updateKeys active key e.value)) with
        | none => rw [hb] at h; simp at h
        | some rules => exact ⟨rules, rfl⟩

/-- Witness for C10: releasing the held `f13` empties the set and the
resulting release-all trace contains no device-volume call. -/
theorem claim_C10_witness :
    AudioAction.setSourceVolume "mic0" "1.0" ∉
      (step sampleKeyTable sampleOracle ["f13"] ⟨1, 183, 0⟩).2 :=
  (claim_C10 sampleKeyTable sampleOracle ["f13"] ⟨1, 183, 0⟩ "f13" (by decide)).1
    (by decide) "mic0" "1.0"
